import Mathlib

/-!
Verification of the InsForge application gateway and runtime orchestrator.

This file shallowly embeds the relevant parts of the repository:
* `functionProxyHandler` from `src/backend/src/api/middlewares/function-proxy.ts`
  (the function gateway),
* the boot sequence (`createApp` / the server start routine) and the
  shutdown routine `cleanup` from the backend entry file,
* the request-telemetry middleware installed in `createApp`.

Effectful TypeScript is modelled with explicit environments: every external
collaborator (the deployment service, `fetch`, the subsystem handles) is a
field of an environment record, and a fallible step is an `Except String`
value whose error channel carries the thrown error's text.  Platform
primitives (`URL`, `JSON.stringify`, `Buffer.byteLength`) are modelled by
small executable Lean functions, restricted to the inputs the handlers
actually produce; each such model says so in its doc comment.
-/

namespace InsForge

/-! ## JavaScript primitives -/

/-- JS `a || b` on an optional string `a` (absent and the empty string are
falsy, as in `process.env.X || d` and `req.ip || addr`). -/
def jsOrElse (v : Option String) (d : String) : String :=
  match v with
  | some s => if s = "" then d else s
  | none => d

/-- Whether `pat` is an initial segment of `l`. -/
def leadsWith : List Char → List Char → Bool
  | [], _ => true
  | _ :: _, [] => false
  | a :: as, b :: bs => a = b && leadsWith as bs

/-- Whether `needle` occurs contiguously inside `hay`. -/
def occursIn (needle : List Char) : List Char → Bool
  | [] => leadsWith needle []
  | c :: cs => leadsWith needle (c :: cs) || occursIn needle cs

/-- JS `String.prototype.includes` (with a non-empty needle, the only way
the middleware uses it). -/
def jsStrIncludes (s needle : String) : Bool :=
  occursIn needle.data s.data

/-- ASCII lowercasing of a header name, as Node applies to header fields. -/
def lowerName (s : String) : String :=
  String.mk (s.data.map Char.toLower)

/-- JS object property assignment `o[k] = v` on an object represented as an
insertion-ordered association list (at most one entry per key, as in a JS
object): an existing key is overwritten in place, a new key is appended. -/
def objSet : List (String × String) → String → String → List (String × String)
  | [], k, v => [(k, v)]
  | p :: ps, k, v => if p.1 = k then (k, v) :: ps else p :: objSet ps k v

/-- JS object property read `o[k]`. -/
def objGet : List (String × String) → String → Option String
  | [], _ => none
  | p :: ps, k => if p.1 = k then some p.2 else objGet ps k

/-- Node/Express `res.set(k, v)`: header names compare case-insensitively
(Node keys its header store by lowercased name, so a response holds at most
one entry per name); an existing header is overwritten in place, a new one
appended. -/
def resSet : List (String × String) → String → String → List (String × String)
  | [], k, v => [(k, v)]
  | p :: ps, k, v =>
      if lowerName p.1 = lowerName k then (k, v) :: ps else p :: resSet ps k v

/-- Case-insensitive header read on an outgoing response. -/
def getHeader : List (String × String) → String → Option String
  | [], _ => none
  | p :: ps, k => if lowerName p.1 = lowerName k then some p.2 else getHeader ps k

/-- `res.set(headerObject)`: apply `res.set` to every entry in order. -/
def resSetAll (acc : List (String × String)) (l : List (String × String)) :
    List (String × String) :=
  l.foldl (fun a p => resSet a p.1 p.2) acc

/-! ## JSON values and `JSON.stringify`

`req.body` is the output of Express's JSON body parser, hence an acyclic
JSON value; `JSON.stringify` on such a value is total. -/

inductive Json where
  | null : Json
  | bool (b : Bool) : Json
  | num (n : Int) : Json
  | str (s : String) : Json
  | arr (xs : List Json) : Json
  | obj (fields : List (String × Json)) : Json

/-- JSON string escaping for the characters the serializer must protect. -/
def escapeJsonString (s : String) : String :=
  s.data.foldl (fun acc c =>
    acc ++ (if c = '"' then "\\\""
            else if c = '\\' then "\\\\"
            else if c = '\n' then "\\n"
            else if c = '\t' then "\\t"
            else if c = '\r' then "\\r"
            else String.singleton c)) ""

mutual

/-- Models the platform primitive `JSON.stringify` on parsed (acyclic)
JSON values. -/
def Json.stringify : Json → String
  | Json.null => "null"
  | Json.bool true => "true"
  | Json.bool false => "false"
  | Json.num n => toString n
  | Json.str s => "\"" ++ escapeJsonString s ++ "\""
  | Json.arr xs => "[" ++ String.intercalate "," (stringifyList xs) ++ "]"
  | Json.obj fs => "\x7b" ++ String.intercalate "," (stringifyFields fs) ++ "\x7d"

def stringifyList : List Json → List String
  | [] => []
  | x :: xs => Json.stringify x :: stringifyList xs

def stringifyFields : List (String × Json) → List String
  | [] => []
  | (k, v) :: fs =>
      ("\"" ++ escapeJsonString k ++ "\":" ++ Json.stringify v) :: stringifyFields fs

end

/-! ## URLs

The handler only ever constructs `new URL("/" ++ slug, base)` with `base` an
absolute URL string, and reads `.search` off the incoming request URL (an
absolute path as Express provides it).  The WHATWG constructor is modelled
on exactly that domain. -/

structure Url where
  scheme : String
  host : String
  path : String
  search : String
deriving DecidableEq, Repr

def Url.toUrlString (u : Url) : String :=
  u.scheme ++ "://" ++ u.host ++ u.path ++ u.search

/-- Split a character list at the first occurrence of `"://"`, returning
the part before and the part after. -/
def splitScheme : List Char → Option (List Char × List Char)
  | [] => none
  | ':' :: '/' :: '/' :: rest => some ([], rest)
  | c :: cs =>
      match splitScheme cs with
      | none => none
      | some p => some (c :: p.1, p.2)

/-- Models the platform `URL` parser on an absolute base URL: scheme before
`"://"`, host up to the first `/`, `?` or `#`.  `none` models the
`TypeError` the constructor throws on a base with no scheme or no host. -/
def parseBaseUrl (s : String) : Option (String × String) :=
  match splitScheme s.data with
  | none => none
  | some p =>
      let host := p.2.takeWhile (fun c => c != '/' && c != '?' && c != '#')
      if p.1 = [] ∨ host = [] then none
      else some (String.mk p.1, String.mk host)

/-- The characters after the first `'?'`, if any. -/
def searchFrom : List Char → Option (List Char)
  | [] => none
  | c :: cs => if c = '?' then some cs else searchFrom cs

/-- Models `new URL(reqUrl, base).search` for a path-shaped request URL:
the substring from the first `?` on, `""` when absent or empty. -/
def urlSearch (reqUrl : String) : String :=
  match searchFrom reqUrl.data with
  | none => ""
  | some q => if q = [] then "" else String.mk ('?' :: q)

/-! ## The function gateway (`functionProxyHandler`) -/

/-- A Node incoming-header value: a single string or a multi-valued header. -/
inductive HdrVal where
  | str (s : String) : HdrVal
  | strs (vs : List String) : HdrVal
deriving DecidableEq, Repr

/-- The request as the handler sees it: `req.method`, `req.url`
(path plus query), `req.headers`, and the already-parsed `req.body`. -/
structure IncomingRequest where
  method : String
  url : String
  headers : List (String × HdrVal)
  body : Json

/-- The request handed to `fetch`: target URL, method, header object, and
optional string body. -/
structure UpstreamRequest where
  url : Url
  method : String
  headers : List (String × String)
  body : Option String

/-- The upstream response after `await response.arrayBuffer()`:
status, the entries of `response.headers` (node-fetch yields lowercase,
duplicate-free names), and the raw body bytes. -/
structure UpstreamResponse where
  status : Nat
  headers : List (String × String)
  body : List Nat

inductive ResponseBody where
  | bytes (bs : List Nat) : ResponseBody
  | jsonBody (j : Json) : ResponseBody

/-- The outgoing Express response as the handler builds it: status, the
headers the handler itself sets, and the body passed to `send`/`json`. -/
structure HttpResponse where
  status : Nat
  headers : List (String × String)
  body : ResponseBody

/-- The handler's collaborators: `FunctionService.isSubhostingConfigured()`,
`FunctionService.getDeploymentUrl()` (a promise that resolves to a string
or null, or rejects), `process.env.DENO_RUNTIME_URL`, and `fetch` combined
with the body read (either may throw; the error channel carries the text). -/
structure ProxyEnv where
  subhostingConfigured : Bool
  getDeploymentUrl : Except String (Option String)
  denoRuntimeUrl : Option String
  fetch : UpstreamRequest → Except String UpstreamResponse

/-- `process.env.DENO_RUNTIME_URL || 'http://localhost:7133'`. -/
def localRuntimeUrl (env : ProxyEnv) : String :=
  jsOrElse env.denoRuntimeUrl "http://localhost:7133"

/-- `(functionService.isSubhostingConfigured() && (await functionService.getDeploymentUrl())) || localRuntime`:
when subhosting is not configured the deployment call is short-circuited
away; a falsy deployment URL (null or `""`) falls back to the local
runtime; a rejected deployment promise propagates as an error. -/
def selectBaseUrl (env : ProxyEnv) : Except String String :=
  if env.subhostingConfigured then
    match env.getDeploymentUrl with
    | Except.error e => Except.error e
    | Except.ok u => Except.ok (jsOrElse u (localRuntimeUrl env))
  else
    Except.ok (localRuntimeUrl env)

/-- Header names dropped when relaying the upstream response. -/
def excludedResponseHeaders : List String :=
  ["transfer-encoding", "content-length", "connection", "content-encoding"]

/-- Lines 13-41 of the handler: resolve the base URL, build the target URL
(`new URL("/" + slug, baseUrl)` with the incoming search copied onto it),
keep exactly the single-string incoming headers, overwrite `host` with the
target's host, and attach the body (`undefined` for GET/HEAD, otherwise
`JSON.stringify(req.body)`). -/
def buildUpstreamRequest (env : ProxyEnv) (slug : String) (req : IncomingRequest) :
    Except String UpstreamRequest :=
  match selectBaseUrl env with
  | Except.error e => Except.error e
  | Except.ok baseUrl =>
    match parseBaseUrl baseUrl with
    | none => Except.error ("Invalid URL: base " ++ baseUrl)
    | some sh =>
      let target : Url :=
        { scheme := sh.1, host := sh.2, path := "/" ++ slug, search := urlSearch req.url }
      let strHeaders := req.headers.filterMap (fun p =>
        match p.2 with
        | HdrVal.str s => some (p.1, s)
        | _ => none)
      Except.ok
        { url := target
          method := req.method
          headers := objSet strHeaders "host" target.host
          body := if req.method = "GET" ∨ req.method = "HEAD" then none
                  else some (Json.stringify req.body) }

/-- The loop body of lines 47-55: skip an excluded header, store any other
into the `responseHeaders` object. -/
def relayStep (acc : List (String × String)) (p : String × String) :
    List (String × String) :=
  if p.1 ∈ excludedResponseHeaders then acc else objSet acc p.1 p.2

/-- Lines 44-61 of the handler: read the body bytes, copy every upstream
header except the excluded four into a fresh object, apply that object and
then `Access-Control-Allow-Origin: *` onto the response with Express
`res.set`, and send status plus bytes. -/
def relayResponse (up : UpstreamResponse) : HttpResponse :=
  let respHeaders := up.headers.foldl relayStep []
  { status := up.status
    headers := resSet (resSetAll [] respHeaders) "Access-Control-Allow-Origin" "*"
    body := ResponseBody.bytes up.body }

/-- The `try` block of the handler (everything that can throw). -/
def tryProxy (env : ProxyEnv) (slug : String) (req : IncomingRequest) :
    Except String HttpResponse :=
  match buildUpstreamRequest env slug req with
  | Except.error e => Except.error e
  | Except.ok ur =>
    match env.fetch ur with
    | Except.error e => Except.error e
    | Except.ok up => Except.ok (relayResponse up)

/-- The `catch` block: `res.status(502).json({error, message, details})`
with `details` carrying the thrown error's text. -/
def gatewayErrorResponse (details : String) : HttpResponse :=
  { status := 502
    headers := []
    body := ResponseBody.jsonBody (Json.obj
      [("error", Json.str "GATEWAY_ERROR"),
       ("message", Json.str "Failed to reach edge function runtime"),
       ("details", Json.str details)]) }

/-- `functionProxyHandler`: the `try` body with every error routed to the
502 `catch` response.  Total by construction — no exception escapes. -/
def functionProxyHandler (env : ProxyEnv) (slug : String) (req : IncomingRequest) :
    HttpResponse :=
  match tryProxy env slug req with
  | Except.ok r => r
  | Except.error e => gatewayErrorResponse e

/-! ## The boot sequence

`createApp` awaits the data store, object storage, log sink and SQL-parser
initializations, builds the Express app, and awaits `seedBackend`; the
server start routine then listens, attaches the socket hub, awaits the
realtime (pg_notify) listener, and finally fires `syncDeployment` without
awaiting it (`.catch` merely logs).  Any step throwing inside the `try`
logs and calls `process.exit(1)`. -/

inductive BootStep where
  | dbInit : BootStep
  | storageInit : BootStep
  | logInit : BootStep
  | sqlParserInit : BootStep
  | seedBackend : BootStep
  | listen : BootStep
  | socketInit : BootStep
  | realtimeInit : BootStep
  | syncFire : BootStep
deriving DecidableEq, Repr

/-- The awaited boot steps, in source order. -/
def bootOrder : List BootStep :=
  [BootStep.dbInit, BootStep.storageInit, BootStep.logInit, BootStep.sqlParserInit,
   BootStep.seedBackend, BootStep.listen, BootStep.socketInit, BootStep.realtimeInit,
   BootStep.syncFire]

/-- Outcome of each collaborator call during boot.  `syncOutcome` is the
eventual result of the detached `syncDeployment()` promise; firing the task
itself (calling the async function) cannot throw synchronously. -/
structure BootEnv where
  dbInit : Except String Unit
  storageInit : Except String Unit
  logInit : Except String Unit
  sqlParserInit : Except String Unit
  seedBackend : Except String Unit
  listen : Except String Unit
  socketInit : Except String Unit
  realtimeInit : Except String Unit
  syncOutcome : Except String Unit

def stepAction (env : BootEnv) : BootStep → Except String Unit
  | BootStep.dbInit => env.dbInit
  | BootStep.storageInit => env.storageInit
  | BootStep.logInit => env.logInit
  | BootStep.sqlParserInit => env.sqlParserInit
  | BootStep.seedBackend => env.seedBackend
  | BootStep.listen => env.listen
  | BootStep.socketInit => env.socketInit
  | BootStep.realtimeInit => env.realtimeInit
  | BootStep.syncFire => Except.ok ()

/-- Run steps strictly in order until the first failure: returns the
completed steps and the first error, if any. -/
def runSteps (env : BootEnv) : List BootStep → List BootStep × Option String
  | [] => ([], none)
  | s :: rest =>
    match stepAction env s with
    | Except.ok _ =>
        let r := runSteps env rest
        (s :: r.1, r.2)
    | Except.error e => ([], some e)

/-- The observable outcome of boot: the completed steps, the process exit
code (`some 1` on a boot failure, `none` while the server keeps running),
and whether the detached sync task logged a failure. -/
structure BootResult where
  steps : List BootStep
  exitCode : Option Nat
  syncErrorLogged : Bool
deriving DecidableEq, Repr

/-- The server start routine: the sequential `try` body with
`process.exit(1)` in its `catch`; the detached sync outcome is only ever
logged. -/
def runBoot (env : BootEnv) : BootResult :=
  let r := runSteps env bootOrder
  { steps := r.1
    exitCode := match r.2 with
      | some _ => some 1
      | none => none
    syncErrorLogged :=
      match r.2, env.syncOutcome with
      | none, Except.error _ => true
      | _, _ => false }

/-! ## The shutdown sequence (`cleanup`) -/

/-- Modelled from the spec: the SubsystemHandle lifecycle state,
`Uninitialized → Ready → Closed`, with `Closed` terminal. -/
inductive SubsystemState where
  | uninit : SubsystemState
  | ready : SubsystemState
  | closed : SubsystemState
deriving DecidableEq, Repr

/-- Modelled from the spec: a subsystem handle's `close`/`destroy`
implementation (the managers themselves — RealtimeManager, SocketManager,
OAuthPKCEService, the email-cooldown interval — live outside the given
sources).  The call observes the current state and either returns the next
state or throws. -/
structure SubsystemImpl where
  close : SubsystemState → Except String SubsystemState

/-- Modelled from the spec: `Closed` is terminal and idempotent — a close
attempt on a `Closed` handle does not fault and stays `Closed` — and a
successful close always lands in `Closed`. -/
def ContractOK (impl : SubsystemImpl) : Prop :=
  impl.close SubsystemState.closed = Except.ok SubsystemState.closed ∧
  ∀ s s', impl.close s = Except.ok s' → s' = SubsystemState.closed

/-- The four collaborators torn down by `cleanup`, in source order. -/
structure ShutdownEnv where
  realtime : SubsystemImpl
  socket : SubsystemImpl
  oauth : SubsystemImpl
  emailInterval : SubsystemImpl

/-- The per-process states of the four subsystems. -/
structure SysState where
  realtime : SubsystemState
  socket : SubsystemState
  oauth : SubsystemState
  emailInterval : SubsystemState
deriving DecidableEq, Repr

inductive CleanupEvent where
  | attempted (name : String) : CleanupEvent
  | errorLogged (name : String) (msg : String) : CleanupEvent
  | exited (code : Nat) : CleanupEvent
deriving DecidableEq, Repr

/-- One `try { close } catch { logger.error }` block of `cleanup`: the close
is attempted; an error is logged and swallowed, leaving the state as it
was. -/
def runCloseStep (name : String) (impl : SubsystemImpl) (s : SubsystemState) :
    SubsystemState × List CleanupEvent :=
  match impl.close s with
  | Except.ok s' => (s', [CleanupEvent.attempted name])
  | Except.error e => (s, [CleanupEvent.attempted name, CleanupEvent.errorLogged name e])

/-- `cleanup`: four isolated teardown blocks in fixed order, then
`process.exit(0)`. -/
def cleanup (env : ShutdownEnv) (st : SysState) : SysState × List CleanupEvent :=
  let r1 := runCloseStep "RealtimeManager" env.realtime st.realtime
  let r2 := runCloseStep "SocketManager" env.socket st.socket
  let r3 := runCloseStep "OAuthPKCEService" env.oauth st.oauth
  let r4 := runCloseStep "EmailCooldownInterval" env.emailInterval st.emailInterval
  ({ realtime := r1.1, socket := r2.1, oauth := r3.1, emailInterval := r4.1 },
   r1.2 ++ r2.2 ++ r3.2 ++ r4.2 ++ [CleanupEvent.exited 0])

/-- The names of the close attempts recorded in an event list, in order. -/
def attemptNames (evs : List CleanupEvent) : List String :=
  evs.filterMap (fun ev =>
    match ev with
    | CleanupEvent.attempted n => some n
    | _ => none)

/-- Whether an error was logged for the named subsystem. -/
def hasErrorFor (evs : List CleanupEvent) (name : String) : Bool :=
  evs.any (fun ev =>
    match ev with
    | CleanupEvent.errorLogged n _ => n = name
    | _ => false)

/-! ## The request-telemetry middleware

The middleware overrides `res.send` and `res.json` to record a byte size
without changing the data handed on, and on `finish` emits one structured
log entry unless the path contains `/logs/`.  A JavaScript value reaching
`res.send` is characterized by its branch in the middleware's `typeof`
dispatch; an object is characterized by the outcome of `JSON.stringify` on
it (`none` models the throw on a circular or otherwise non-serializable
value). -/

inductive SendPayload where
  | pstr (s : String) : SendPayload
  | pbuf (bytes : List Nat) : SendPayload
  | pnum (n : Int) : SendPayload
  | pbool (b : Bool) : SendPayload
  | pobj (stringified : Option String) : SendPayload
  | pnull : SendPayload
deriving DecidableEq, Repr

/-- The argument of `res.json`: possibly `undefined`, otherwise a value
characterized by its `JSON.stringify` outcome. -/
inductive JsonArg where
  | undef : JsonArg
  | val (stringified : Option String) : JsonArg
deriving DecidableEq, Repr

/-- The size recorded by the overridden `res.send` (lines 98-118):
`Buffer.byteLength` on strings and stringified values, `.length` on
buffers, `String(data)` first for numbers and booleans, `0` when
`JSON.stringify` throws, and unchanged (initial `0`) for null. -/
def computeSendSize : SendPayload → Nat
  | SendPayload.pstr s => s.utf8ByteSize
  | SendPayload.pbuf bytes => bytes.length
  | SendPayload.pnum n => (toString n).utf8ByteSize
  | SendPayload.pbool true => ("true" : String).utf8ByteSize
  | SendPayload.pbool false => ("false" : String).utf8ByteSize
  | SendPayload.pobj (some s) => s.utf8ByteSize
  | SendPayload.pobj none => 0
  | SendPayload.pnull => 0

/-- The size recorded by the overridden `res.json` (lines 121-133). -/
def computeJsonSize : JsonArg → Nat
  | JsonArg.undef => 0
  | JsonArg.val (some s) => s.utf8ByteSize
  | JsonArg.val none => 0

/-- Which emission path the route handler used for this response. -/
inductive Emission where
  | send (p : SendPayload) : Emission
  | json (j : JsonArg) : Emission
deriving DecidableEq, Repr

def emissionSize : Emission → Nat
  | Emission.send p => computeSendSize p
  | Emission.json j => computeJsonSize j

/-- The overridden emitter: records the size and hands the very same data
to the original `send`/`json`. -/
def wrappedEmit (em : Emission) : Emission × Nat :=
  (em, emissionSize em)

/-- The request fields the telemetry middleware reads. -/
structure TelemetryReq where
  method : String
  path : String
  ip : Option String
  remoteAddress : String
  userAgent : Option String

/-- One structured log record (`logger.info('HTTP Request', {...})`). -/
structure LogEntry where
  method : String
  path : String
  status : Nat
  size : Nat
  duration : Nat
  ip : String
  userAgent : Option String
deriving DecidableEq, Repr

/-- The `finish` listener (lines 136-153): skip paths containing `/logs/`,
otherwise emit exactly one entry with method, path, status, recorded size,
duration, `req.ip || req.socket.remoteAddress`, and user agent. -/
def onFinish (req : TelemetryReq) (status : Nat) (responseSize : Nat)
    (startTime endTime : Nat) : List LogEntry :=
  if jsStrIncludes req.path "/logs/" then []
  else
    [{ method := req.method
       path := req.path
       status := status
       size := responseSize
       duration := endTime - startTime
       ip := jsOrElse req.ip req.remoteAddress
       userAgent := req.userAgent }]

/-- The middleware's whole effect on one completed request: the payload
actually emitted (unchanged) and the log entries produced on `finish`. -/
def telemetryRun (req : TelemetryReq) (status : Nat) (em : Emission)
    (startTime endTime : Nat) : Emission × List LogEntry :=
  ((wrappedEmit em).1, onFinish req status (wrappedEmit em).2 startTime endTime)

/-! ## Witness fixtures: concrete environments and requests -/

/-- A gateway environment with no deployment configured and an upstream
that refuses the connection. -/
def wEnvDown : ProxyEnv :=
  { subhostingConfigured := false
    getDeploymentUrl := Except.ok none
    denoRuntimeUrl := none
    fetch := fun _ => Except.error "connect ECONNREFUSED 127.0.0.1:7133" }

/-- A concrete upstream response used by witnesses. -/
def wUp : UpstreamResponse :=
  { status := 201
    headers := [("content-type", "text/plain"), ("content-encoding", "gzip"),
                ("x-foo", "bar")]
    body := [104, 105] }

/-- A gateway environment with no deployment configured and a healthy
local upstream answering `wUp`. -/
def wEnvLocal : ProxyEnv :=
  { subhostingConfigured := false
    getDeploymentUrl := Except.ok none
    denoRuntimeUrl := none
    fetch := fun _ => Except.ok wUp }

/-- A gateway environment with a managed deployment configured. -/
def wEnvManaged : ProxyEnv :=
  { subhostingConfigured := true
    getDeploymentUrl := Except.ok (some "https://slug.deno.dev")
    denoRuntimeUrl := none
    fetch := fun _ => Except.ok wUp }

/-- A concrete GET request, the worked example of the spec. -/
def wReqGet : IncomingRequest :=
  { method := "GET"
    url := "/functions/hello?x=1"
    headers := [("host", HdrVal.str "localhost:7130"),
                ("x-multi", HdrVal.strs ["a", "b"])]
    body := Json.obj [] }

/-- A concrete POST request with a JSON body. -/
def wReqPost : IncomingRequest :=
  { method := "POST"
    url := "/functions/hello"
    headers := [("host", HdrVal.str "localhost:7130")]
    body := Json.obj [("a", Json.num 1)] }

/-- The upstream request the gateway builds for `wReqGet` under `wEnvLocal`. -/
def wUrGet : UpstreamRequest :=
  { url := { scheme := "http", host := "localhost:7133", path := "/hello", search := "?x=1" }
    method := "GET"
    headers := [("host", "localhost:7133")]
    body := none }

/-- The upstream request the gateway builds for `wReqPost` under `wEnvLocal`. -/
def wUrPost : UpstreamRequest :=
  { url := { scheme := "http", host := "localhost:7133", path := "/hello", search := "" }
    method := "POST"
    headers := [("host", "localhost:7133")]
    body := some "\x7b\"a\":1\x7d" }

/-! ## More witness fixtures -/

/-- A subsystem whose `close` faults. -/
def wBadImpl : SubsystemImpl := ⟨fun _ => Except.error "boom"⟩

/-- A spec-conforming subsystem whose `close` always succeeds. -/
def wOkImpl : SubsystemImpl := ⟨fun _ => Except.ok SubsystemState.closed⟩

/-- A shutdown environment whose notification-listener close faults. -/
def wShutdownFaulty : ShutdownEnv :=
  { realtime := wBadImpl, socket := wOkImpl, oauth := wOkImpl, emailInterval := wOkImpl }

/-- A fully spec-conforming shutdown environment. -/
def wShutdownOk : ShutdownEnv :=
  { realtime := wOkImpl, socket := wOkImpl, oauth := wOkImpl, emailInterval := wOkImpl }

/-- All subsystems up and running. -/
def wReadyState : SysState :=
  { realtime := SubsystemState.ready, socket := SubsystemState.ready,
    oauth := SubsystemState.ready, emailInterval := SubsystemState.ready }

/-- A boot environment in which every step succeeds. -/
def wBootOk : BootEnv :=
  { dbInit := Except.ok (), storageInit := Except.ok (), logInit := Except.ok (),
    sqlParserInit := Except.ok (), seedBackend := Except.ok (), listen := Except.ok (),
    socketInit := Except.ok (), realtimeInit := Except.ok (),
    syncOutcome := Except.error "subhosting unreachable" }

/-! ## Helper lemmas -/

theorem objGet_objSet_self (hs : List (String × String)) (k v : String) :
    objGet (objSet hs k v) k = some v := by
  induction hs with
  | nil => simp [objSet, objGet]
  | cons p ps ih =>
      by_cases hp : p.1 = k
      · simp [objSet, hp, objGet]
      · simp [objSet, hp, objGet, List.find?] at ih ⊢
        simpa [hp] using ih

theorem objSet_fresh (hs : List (String × String)) (k v : String)
    (h : ∀ q ∈ hs, q.1 ≠ k) : objSet hs k v = hs ++ [(k, v)] := by
  induction hs with
  | nil => rfl
  | cons p ps ih =>
      have hp : p.1 ≠ k := h p (List.mem_cons_self p ps)
      simp only [objSet, hp, if_false, List.cons_append, List.cons.injEq, true_and,
        if_neg hp]
      exact ih (fun q hq => h q (List.mem_cons_of_mem p hq))

theorem getHeader_resSet (hs : List (String × String)) (k v k' : String) :
    getHeader (resSet hs k v) k' =
      if lowerName k' = lowerName k then some v else getHeader hs k' := by
  induction hs with
  | nil =>
      by_cases h : lowerName k' = lowerName k
      · rw [if_pos h]
        show (if lowerName k = lowerName k' then some v else getHeader [] k') = some v
        rw [if_pos h.symm]
      · rw [if_neg h]
        show (if lowerName k = lowerName k' then some v else getHeader [] k') = getHeader [] k'
        rw [if_neg (fun hx => h hx.symm)]
  | cons p ps ih =>
      by_cases hp : lowerName p.1 = lowerName k
      · have hrs : resSet (p :: ps) k v = (k, v) :: ps := by
          show (if lowerName p.1 = lowerName k then (k, v) :: ps else _) = _
          rw [if_pos hp]
        rw [hrs]
        by_cases h : lowerName k' = lowerName k
        · rw [if_pos h]
          show (if lowerName k = lowerName k' then some v else getHeader ps k') = some v
          rw [if_pos h.symm]
        · rw [if_neg h]
          have h1 : getHeader ((k, v) :: ps) k' = getHeader ps k' := by
            show (if lowerName k = lowerName k' then some v else getHeader ps k') = _
            rw [if_neg (fun hx => h hx.symm)]
          have h2 : getHeader (p :: ps) k' = getHeader ps k' := by
            show (if lowerName p.1 = lowerName k' then some p.2 else getHeader ps k') = _
            rw [if_neg (fun hx => h (hx.symm.trans hp))]
          rw [h1, h2]
      · have hrs : resSet (p :: ps) k v = p :: resSet ps k v := by
          show (if lowerName p.1 = lowerName k then _ else p :: resSet ps k v) = _
          rw [if_neg hp]
        rw [hrs]
        by_cases hq : lowerName p.1 = lowerName k'
        · have hk : ¬(lowerName k' = lowerName k) := fun hx => hp (hq.trans hx)
          rw [if_neg hk]
          show (if lowerName p.1 = lowerName k' then some p.2 else getHeader (resSet ps k v) k')
              = getHeader (p :: ps) k'
          rw [if_pos hq]
          show _ = (if lowerName p.1 = lowerName k' then some p.2 else getHeader ps k')
          rw [if_pos hq]
        · show (if lowerName p.1 = lowerName k' then some p.2 else getHeader (resSet ps k v) k')
              = _
          rw [if_neg hq, ih]
          by_cases h : lowerName k' = lowerName k
          · rw [if_pos h, if_pos h]
          · rw [if_neg h, if_neg h]
            show _ = (if lowerName p.1 = lowerName k' then some p.2 else getHeader ps k')
            rw [if_neg hq]

theorem getHeader_eq_none (l : List (String × String)) (k : String)
    (h : ∀ p ∈ l, lowerName p.1 ≠ lowerName k) : getHeader l k = none := by
  induction l with
  | nil => rfl
  | cons p ps ih =>
      simp only [getHeader, if_neg (h p (List.mem_cons_self p ps))]
      exact ih (fun q hq => h q (List.mem_cons_of_mem p hq))

theorem getHeader_of_mem (l : List (String × String)) (k v : String)
    (hpw : l.Pairwise (fun a b => lowerName a.1 ≠ lowerName b.1))
    (hm : (k, v) ∈ l) : getHeader l k = some v := by
  induction l with
  | nil => cases hm
  | cons p ps ih =>
      rcases List.pairwise_cons.mp hpw with ⟨hhead, htail⟩
      rcases List.mem_cons.mp hm with h | h
      · rw [← h]
        simp [getHeader]
      · have hne : lowerName p.1 ≠ lowerName k := hhead (k, v) h
        simp only [getHeader, if_neg hne]
        exact ih htail h

theorem getHeader_resSetAll (l : List (String × String)) :
    ∀ (acc : List (String × String)) (k : String),
    l.Pairwise (fun a b => lowerName a.1 ≠ lowerName b.1) →
    getHeader (resSetAll acc l) k =
      (match getHeader l k with
       | some v => some v
       | none => getHeader acc k) := by
  induction l with
  | nil => intro acc k _; simp [resSetAll, getHeader]
  | cons p ps ih =>
      intro acc k hpw
      rcases List.pairwise_cons.mp hpw with ⟨hhead, htail⟩
      have hstep : resSetAll acc (p :: ps) = resSetAll (resSet acc p.1 p.2) ps := rfl
      rw [hstep, ih (resSet acc p.1 p.2) k htail]
      by_cases hq : lowerName p.1 = lowerName k
      · have hnone : getHeader ps k = none :=
          getHeader_eq_none ps k (fun q hqm hx => hhead q hqm (hq.trans hx.symm))
        have h1 : getHeader (p :: ps) k = some p.2 := by
          show (if lowerName p.1 = lowerName k then some p.2 else getHeader ps k) = _
          rw [if_pos hq]
        rw [hnone, h1]
        show getHeader (resSet acc p.1 p.2) k = some p.2
        rw [getHeader_resSet, if_pos hq.symm]
      · have hhd : getHeader (p :: ps) k = getHeader ps k := by
          show (if lowerName p.1 = lowerName k then some p.2 else getHeader ps k) = _
          rw [if_neg hq]
        rw [hhd]
        cases hps : getHeader ps k with
        | some v => rfl
        | none =>
            show getHeader (resSet acc p.1 p.2) k = getHeader acc k
            rw [getHeader_resSet, if_neg (fun hx => hq hx.symm)]

theorem foldl_relayStep_eq_filter (l : List (String × String)) :
    ∀ (acc : List (String × String)),
    (∀ p ∈ l, ∀ q ∈ acc, p.1 ≠ q.1) →
    l.Pairwise (fun a b => a.1 ≠ b.1) →
    l.foldl relayStep acc =
      acc ++ l.filter (fun p => decide (p.1 ∉ excludedResponseHeaders)) := by
  induction l with
  | nil => intro acc _ _; simp
  | cons p ps ih =>
      intro acc hfresh hpw
      rcases List.pairwise_cons.mp hpw with ⟨hhead, htail⟩
      rw [List.foldl_cons]
      by_cases hexc : p.1 ∈ excludedResponseHeaders
      · have hstep : relayStep acc p = acc := if_pos hexc
        rw [hstep, ih acc (fun x hx q hq => hfresh x (List.mem_cons_of_mem p hx) q hq) htail]
        simp [List.filter_cons, hexc]
      · have hstep : relayStep acc p = objSet acc p.1 p.2 := if_neg hexc
        have hobj : objSet acc p.1 p.2 = acc ++ [(p.1, p.2)] :=
          objSet_fresh acc p.1 p.2
            (fun q hq => Ne.symm (hfresh p (List.mem_cons_self p ps) q hq))
        rw [hstep, hobj,
          ih (acc ++ [(p.1, p.2)])
            (fun x hx q hq => by
              rcases List.mem_append.mp hq with hq | hq
              · exact hfresh x (List.mem_cons_of_mem p hx) q hq
              · rcases List.mem_singleton.mp hq with rfl
                exact Ne.symm (hhead x hx))
            htail]
        simp [List.filter_cons, hexc]

theorem pairwise_lower_of_lower_eq (l : List (String × String))
    (hlow : ∀ p ∈ l, lowerName p.1 = p.1)
    (hpw : l.Pairwise (fun a b => a.1 ≠ b.1)) :
    l.Pairwise (fun a b => lowerName a.1 ≠ lowerName b.1) := by
  induction l with
  | nil => exact List.Pairwise.nil
  | cons p ps ih =>
      rcases List.pairwise_cons.mp hpw with ⟨hhead, htail⟩
      refine List.pairwise_cons.mpr
        ⟨?_, ih (fun q hq => hlow q (List.mem_cons_of_mem p hq)) htail⟩
      intro b hb
      rw [hlow p (List.mem_cons_self p ps), hlow b (List.mem_cons_of_mem p hb)]
      exact hhead b hb

/-! ## Lifecycle helper lemmas -/

theorem runSteps_steps_app (env : BootEnv) :
    ∀ l : List BootStep, ∃ rest, l = (runSteps env l).1 ++ rest := by
  intro l
  induction l with
  | nil => exact ⟨[], rfl⟩
  | cons s rest ih =>
      cases h : stepAction env s with
      | ok u =>
          rcases ih with ⟨r, hr⟩
          refine ⟨r, ?_⟩
          simp only [runSteps, h]
          exact congrArg (s :: ·) hr
      | error e => exact ⟨s :: rest, by simp [runSteps, h]⟩

theorem runSteps_none_iff (env : BootEnv) :
    ∀ l : List BootStep,
    ((runSteps env l).2 = none ↔ ∀ s ∈ l, stepAction env s = Except.ok ()) := by
  intro l
  induction l with
  | nil => simp [runSteps]
  | cons s rest ih =>
      cases h : stepAction env s with
      | ok u =>
          cases u
          simp [runSteps, h, ih]
      | error e =>
          simp only [runSteps, h]
          constructor
          · intro hn; cases hn
          · intro hall
            have := hall s (List.mem_cons_self s rest)
            rw [h] at this
            cases this

theorem runSteps_complete (env : BootEnv) :
    ∀ l : List BootStep, (runSteps env l).2 = none → (runSteps env l).1 = l := by
  intro l
  induction l with
  | nil => intro _; rfl
  | cons s rest ih =>
      cases h : stepAction env s with
      | ok u =>
          intro hn
          simp only [runSteps, h] at hn ⊢
          exact congrArg (s :: ·) (ih hn)
      | error e =>
          intro hn
          simp [runSteps, h] at hn

theorem stepAction_sync_irrelevant (env : BootEnv) (o : Except String Unit) (s : BootStep) :
    stepAction { env with syncOutcome := o } s = stepAction env s := by
  cases s <;> rfl

theorem runSteps_sync_irrelevant (env : BootEnv) (o : Except String Unit) :
    ∀ l : List BootStep, runSteps { env with syncOutcome := o } l = runSteps env l := by
  intro l
  induction l with
  | nil => rfl
  | cons s rest ih =>
      simp only [runSteps, stepAction_sync_irrelevant env o s, ih]

theorem cleanup_attempts (env : ShutdownEnv) (st : SysState) :
    attemptNames (cleanup env st).2 =
      ["RealtimeManager", "SocketManager", "OAuthPKCEService", "EmailCooldownInterval"] := by
  unfold cleanup
  cases h1 : env.realtime.close st.realtime <;>
  cases h2 : env.socket.close st.socket <;>
  cases h3 : env.oauth.close st.oauth <;>
  cases h4 : env.emailInterval.close st.emailInterval <;>
    simp [runCloseStep, h1, h2, h3, h4, attemptNames]

theorem cleanup_last (env : ShutdownEnv) (st : SysState) :
    (cleanup env st).2.getLast? = some (CleanupEvent.exited 0) :=
  List.getLast?_concat _

theorem closed_second_run (impl : SubsystemImpl) (hc : ContractOK impl) (name : String)
    (s : SubsystemState) (h : s = SubsystemState.closed) :
    runCloseStep name impl s =
      (SubsystemState.closed, [CleanupEvent.attempted name]) := by
  subst h
  unfold runCloseStep
  rw [hc.1]

theorem hasErrorFor_append (a b : List CleanupEvent) (n : String) :
    hasErrorFor (a ++ b) n = (hasErrorFor a n || hasErrorFor b n) :=
  List.any_append

theorem hasErrorFor_runCloseStep_ne (name other : String) (impl : SubsystemImpl)
    (s : SubsystemState) (h : ¬(name = other)) :
    hasErrorFor (runCloseStep name impl s).2 other = false := by
  cases hc : impl.close s <;> simp [runCloseStep, hasErrorFor, hc, h]

theorem wOkImpl_contract : ContractOK wOkImpl :=
  ⟨rfl, fun _ _ h => (Except.ok.inj h).symm⟩

/-! ## C1: gateway errors are confined to a 502 response -/

/-- C1: every error raised while resolving the target, connecting to the
upstream, or reading the upstream response is caught inside
`functionProxyHandler` and turned into a status-502 response with body
`{error: "GATEWAY_ERROR", message, details}` whose `details` field carries
the lower-level error text; otherwise the relayed response is returned.
In both cases the handler returns normally — no exception escapes. -/
theorem gateway_errors_confined (env : ProxyEnv) (slug : String) (req : IncomingRequest) :
    (∃ r, tryProxy env slug req = Except.ok r ∧ functionProxyHandler env slug req = r) ∨
    (∃ e, tryProxy env slug req = Except.error e ∧
      functionProxyHandler env slug req =
        { status := 502
          headers := []
          body := ResponseBody.jsonBody (Json.obj
            [("error", Json.str "GATEWAY_ERROR"),
             ("message", Json.str "Failed to reach edge function runtime"),
             ("details", Json.str e)]) }) := by
  cases h : tryProxy env slug req with
  | ok r => exact Or.inl ⟨r, rfl, by simp [functionProxyHandler, h]⟩
  | error e => exact Or.inr ⟨e, rfl, by simp [functionProxyHandler, h, gatewayErrorResponse]⟩

/-! ## C2: fresh per-call target resolution -/

/-- C2: the base URL is selected per call from the deployment collaborator:
when subhosting is configured and the deployment URL resolves non-empty,
that managed URL is chosen; when subhosting is unconfigured, or the
deployment URL resolves to absent or empty, the local runtime URL from
configuration is chosen, which defaults to `http://localhost:7133` when the
`DENO_RUNTIME_URL` variable is unset. -/
theorem gateway_base_url_selection (env : ProxyEnv) (u : String) :
    (env.subhostingConfigured = true →
       env.getDeploymentUrl = Except.ok (some u) → u ≠ "" →
       selectBaseUrl env = Except.ok u) ∧
    (env.subhostingConfigured = false →
       selectBaseUrl env = Except.ok (localRuntimeUrl env)) ∧
    (env.getDeploymentUrl = Except.ok none →
       selectBaseUrl env = Except.ok (localRuntimeUrl env)) ∧
    (env.getDeploymentUrl = Except.ok (some "") →
       selectBaseUrl env = Except.ok (localRuntimeUrl env)) ∧
    (env.denoRuntimeUrl = none → localRuntimeUrl env = "http://localhost:7133") := by
  refine ⟨fun hc hd hu => ?_, fun hc => ?_, fun hd => ?_, fun hd => ?_, fun hn => ?_⟩
  · simp [selectBaseUrl, hc, hd, jsOrElse, hu]
  · simp [selectBaseUrl, hc]
  · cases hc : env.subhostingConfigured <;> simp [selectBaseUrl, hc, hd, jsOrElse]
  · cases hc : env.subhostingConfigured <;> simp [selectBaseUrl, hc, hd, jsOrElse]
  · simp [localRuntimeUrl, hn, jsOrElse]

/-- Witness for C2: under `wEnvManaged` the managed URL is selected. -/
theorem gateway_base_url_selection_witness :
    selectBaseUrl wEnvManaged = Except.ok "https://slug.deno.dev" :=
  (gateway_base_url_selection wEnvManaged "https://slug.deno.dev").1 rfl rfl (by decide)

/-! ## C3: body forwarding -/

/-- C3: the upstream request carries no body for GET and HEAD, and for any
other method it carries exactly the JSON serialization of the parsed
request body. -/
theorem gateway_body_forwarding (env : ProxyEnv) (slug : String) (req : IncomingRequest)
    (ur : UpstreamRequest) (h : buildUpstreamRequest env slug req = Except.ok ur) :
    (req.method = "GET" ∨ req.method = "HEAD" → ur.body = none) ∧
    (¬(req.method = "GET" ∨ req.method = "HEAD") →
       ur.body = some (Json.stringify req.body)) := by
  unfold buildUpstreamRequest at h
  cases hs : selectBaseUrl env with
  | error e => rw [hs] at h; exact absurd h (by simp)
  | ok b =>
      rw [hs] at h
      dsimp only at h
      cases hp : parseBaseUrl b with
      | none => rw [hp] at h; exact absurd h (by simp)
      | some sh =>
          rw [hp] at h
          simp only [Except.ok.injEq] at h
          subst h
          constructor
          · intro hm; simp [hm]
          · intro hm; simp [hm]

/-- Witness for C3: the POST request's upstream body is the JSON text of
its parsed body. -/
theorem gateway_body_forwarding_witness :
    wUrPost.body = some (Json.stringify wReqPost.body) :=
  (gateway_body_forwarding wEnvLocal "hello" wReqPost wUrPost rfl).2 (by decide)

/-! ## C4: response relay -/

/-- C4: on a successful relay the handler returns the upstream status and
body bytes unchanged; every upstream response header outside the excluded
set (`transfer-encoding`, `content-length`, `connection`,
`content-encoding`) is carried over (an upstream
`access-control-allow-origin` value is the one exception, being overwritten
by the forced header); `content-encoding` is never relayed; and
`Access-Control-Allow-Origin: *` is always set on the outgoing response.
The hypotheses `hlow` and `hnodup` record what node-fetch guarantees about
`response.headers.entries()`: lowercase, duplicate-free names. -/
theorem gateway_relay_response (env : ProxyEnv) (slug : String) (req : IncomingRequest)
    (ur : UpstreamRequest) (up : UpstreamResponse)
    (hb : buildUpstreamRequest env slug req = Except.ok ur)
    (hf : env.fetch ur = Except.ok up)
    (hlow : ∀ p ∈ up.headers, lowerName p.1 = p.1)
    (hnodup : up.headers.Pairwise (fun a b => a.1 ≠ b.1)) :
    functionProxyHandler env slug req = relayResponse up ∧
    (relayResponse up).status = up.status ∧
    (relayResponse up).body = ResponseBody.bytes up.body ∧
    getHeader (relayResponse up).headers "content-encoding" = none ∧
    getHeader (relayResponse up).headers "Access-Control-Allow-Origin" = some "*" ∧
    (∀ k v, (k, v) ∈ up.headers → k ∉ excludedResponseHeaders →
       k ≠ "access-control-allow-origin" →
       getHeader (relayResponse up).headers k = some v) := by
  have hhandler : functionProxyHandler env slug req = relayResponse up := by
    unfold functionProxyHandler tryProxy
    rw [hb]
    dsimp only
    rw [hf]
  have hfilter : up.headers.foldl relayStep [] =
      up.headers.filter (fun p => decide (p.1 ∉ excludedResponseHeaders)) :=
    foldl_relayStep_eq_filter up.headers [] (fun p _ q hq => absurd hq (List.not_mem_nil q))
      hnodup
  set flt := up.headers.filter (fun p => decide (p.1 ∉ excludedResponseHeaders)) with hflt
  have hlowf : ∀ p ∈ flt, lowerName p.1 = p.1 :=
    fun p hp => hlow p (List.mem_of_mem_filter hp)
  have hpwf : flt.Pairwise (fun a b => lowerName a.1 ≠ lowerName b.1) :=
    pairwise_lower_of_lower_eq flt hlowf
      (hnodup.sublist (List.filter_sublist up.headers))
  have hhdrs : (relayResponse up).headers =
      resSet (resSetAll [] flt) "Access-Control-Allow-Origin" "*" := by
    show resSet (resSetAll [] (up.headers.foldl relayStep [])) _ _ = _
    rw [hfilter]
  have hacaolow : lowerName "Access-Control-Allow-Origin" = "access-control-allow-origin" := by
    decide
  refine ⟨hhandler, rfl, rfl, ?_, ?_, ?_⟩
  · rw [hhdrs, getHeader_resSet]
    rw [if_neg (by rw [hacaolow]; decide)]
    rw [getHeader_resSetAll flt [] "content-encoding" hpwf]
    have hnonef : getHeader flt "content-encoding" = none := by
      refine getHeader_eq_none flt "content-encoding" (fun p hp => ?_)
      rw [hlowf p hp]
      have hmem := List.of_mem_filter hp
      simp only [decide_eq_true_eq] at hmem
      have hlc : lowerName "content-encoding" = "content-encoding" := by decide
      rw [hlc]
      intro hx
      exact hmem (hx ▸ (by decide : "content-encoding" ∈ excludedResponseHeaders))
    rw [hnonef]
    rfl
  · rw [hhdrs, getHeader_resSet, if_pos rfl]
  · intro k v hm hexc hne
    rw [hhdrs, getHeader_resSet]
    have hk : lowerName k = k := hlow (k, v) hm
    rw [if_neg (by rw [hacaolow, hk]; exact hne)]
    rw [getHeader_resSetAll flt [] k hpwf]
    have hmf : (k, v) ∈ flt := by
      rw [hflt]
      exact List.mem_filter.mpr ⟨hm, by simpa using hexc⟩
    rw [getHeader_of_mem flt k v hpwf hmf]

/-- Witness for C4: a concrete relay drops `content-encoding`, forces the
CORS header, and carries `x-foo` through. -/
theorem gateway_relay_response_witness :
    functionProxyHandler wEnvLocal "hello" wReqGet = relayResponse wUp ∧
    getHeader (relayResponse wUp).headers "content-encoding" = none ∧
    getHeader (relayResponse wUp).headers "Access-Control-Allow-Origin" = some "*" ∧
    getHeader (relayResponse wUp).headers "x-foo" = some "bar" :=
  have t := gateway_relay_response wEnvLocal "hello" wReqGet wUrGet wUp rfl rfl
    (by decide) (by decide)
  ⟨t.1, t.2.2.2.1, t.2.2.2.2.1,
   t.2.2.2.2.2 "x-foo" "bar" (by decide) (by decide) (by decide)⟩

/-! ## C5: target URL construction -/

/-- C5: the upstream target is the selected base URL joined with
`"/" ++ slug`, the original request's query string is copied onto the
target verbatim, and the `host` header is overwritten with the target
base's host. -/
theorem gateway_target_url (env : ProxyEnv) (slug : String) (req : IncomingRequest)
    (ur : UpstreamRequest) (h : buildUpstreamRequest env slug req = Except.ok ur) :
    ∃ b sh, selectBaseUrl env = Except.ok b ∧ parseBaseUrl b = some sh ∧
      ur.url = { scheme := sh.1, host := sh.2, path := "/" ++ slug,
                 search := urlSearch req.url } ∧
      objGet ur.headers "host" = some sh.2 := by
  unfold buildUpstreamRequest at h
  cases hs : selectBaseUrl env with
  | error e => rw [hs] at h; exact absurd h (by simp)
  | ok b =>
      rw [hs] at h
      dsimp only at h
      cases hp : parseBaseUrl b with
      | none => rw [hp] at h; exact absurd h (by simp)
      | some sh =>
          rw [hp] at h
          simp only [Except.ok.injEq] at h
          subst h
          exact ⟨b, sh, rfl, hp, rfl, objGet_objSet_self _ _ _⟩

/-- Witness for C5, the spec's worked example: slug `"hello"`, query
`?x=1`, method GET, no deployment configured — the target is
`http://localhost:7133/hello?x=1` and the `host` header is the local
runtime's host. -/
theorem gateway_target_url_witness :
    ∃ b sh, selectBaseUrl wEnvLocal = Except.ok b ∧ parseBaseUrl b = some sh ∧
      wUrGet.url = { scheme := sh.1, host := sh.2, path := "/" ++ "hello",
                     search := urlSearch wReqGet.url } ∧
      objGet wUrGet.headers "host" = some sh.2 :=
  gateway_target_url wEnvLocal "hello" wReqGet wUrGet rfl

/-! ## C6: shutdown ordering and failure isolation -/

/-- C6: for every combination of collaborator outcomes, `cleanup` attempts
the four teardown actions in the fixed source order (notification listener,
socket hub, session store, interval timers) — an error in one does not
prevent the later attempts — each failure is logged with the failing
subsystem's name and error text, and the last event is always
`process.exit(0)`. -/
theorem shutdown_isolation (env : ShutdownEnv) (st : SysState) :
    attemptNames (cleanup env st).2 =
      ["RealtimeManager", "SocketManager", "OAuthPKCEService", "EmailCooldownInterval"] ∧
    (cleanup env st).2.getLast? = some (CleanupEvent.exited 0) ∧
    (∀ e, env.realtime.close st.realtime = Except.error e →
       CleanupEvent.errorLogged "RealtimeManager" e ∈ (cleanup env st).2) ∧
    (∀ e, env.socket.close st.socket = Except.error e →
       CleanupEvent.errorLogged "SocketManager" e ∈ (cleanup env st).2) ∧
    (∀ e, env.oauth.close st.oauth = Except.error e →
       CleanupEvent.errorLogged "OAuthPKCEService" e ∈ (cleanup env st).2) ∧
    (∀ e, env.emailInterval.close st.emailInterval = Except.error e →
       CleanupEvent.errorLogged "EmailCooldownInterval" e ∈ (cleanup env st).2) := by
  refine ⟨cleanup_attempts env st, cleanup_last env st, ?_, ?_, ?_, ?_⟩ <;>
    intro e he <;> unfold cleanup <;> simp [runCloseStep, he]

/-- Witness for C6: with a faulting notification-listener close, all four
teardown attempts still happen in order and the fault is logged. -/
theorem shutdown_isolation_witness :
    attemptNames (cleanup wShutdownFaulty wReadyState).2 =
      ["RealtimeManager", "SocketManager", "OAuthPKCEService", "EmailCooldownInterval"] ∧
    CleanupEvent.errorLogged "RealtimeManager" "boom" ∈ (cleanup wShutdownFaulty wReadyState).2 :=
  have t := shutdown_isolation wShutdownFaulty wReadyState
  ⟨t.1, t.2.2.1 "boom" rfl⟩

/-! ## C7: strictly sequential boot, fatal step failures -/

/-- C7: the boot routine runs its steps strictly in the fixed source order
(`bootOrder`, ending with the non-blocking deployment-sync firing): the
completed steps always form an initial segment of that order; the process
keeps running (`exitCode = none`) exactly when every step succeeds, in
which case all steps ran; any step failure exits with status 1; and the
detached sync task's eventual outcome affects neither the exit code nor
the executed steps. -/
theorem boot_sequence (env : BootEnv) :
    (∃ rest, bootOrder = (runBoot env).steps ++ rest) ∧
    ((runBoot env).exitCode = none ↔ ∀ s ∈ bootOrder, stepAction env s = Except.ok ()) ∧
    ((runBoot env).exitCode = none → (runBoot env).steps = bootOrder) ∧
    ((runBoot env).exitCode = some 1 ∨ (runBoot env).exitCode = none) ∧
    (∀ o, (runBoot { env with syncOutcome := o }).exitCode = (runBoot env).exitCode ∧
          (runBoot { env with syncOutcome := o }).steps = (runBoot env).steps) := by
  have hsteps : (runBoot env).steps = (runSteps env bootOrder).1 := rfl
  have hexit : (runBoot env).exitCode =
      (match (runSteps env bootOrder).2 with
       | some _ => some 1
       | none => none) := rfl
  refine ⟨?_, ?_, ?_, ?_, ?_⟩
  · rw [hsteps]; exact runSteps_steps_app env bootOrder
  · rw [hexit, ← runSteps_none_iff env bootOrder]
    cases (runSteps env bootOrder).2 <;> simp
  · intro hn
    rw [hsteps]
    refine runSteps_complete env bootOrder ?_
    rw [hexit] at hn
    cases h : (runSteps env bootOrder).2 with
    | none => rfl
    | some e => rw [h] at hn; cases hn
  · rw [hexit]; cases (runSteps env bootOrder).2 <;> simp
  · intro o
    constructor
    · show (match (runSteps { env with syncOutcome := o } bootOrder).2 with
            | some _ => some 1
            | none => none) = _
      rw [runSteps_sync_irrelevant env o bootOrder, hexit]
    · show (runSteps { env with syncOutcome := o } bootOrder).1 = _
      rw [runSteps_sync_irrelevant env o bootOrder, hsteps]

/-- Witness for C7: when every step succeeds, boot runs the whole fixed
order and does not exit. -/
theorem boot_sequence_witness :
    (runBoot wBootOk).steps = bootOrder :=
  (boot_sequence wBootOk).2.2.1 rfl

/-! ## C8: non-serializable payloads degrade to size 0 -/

/-- C8: when the response payload is circular or otherwise
non-serializable (its `JSON.stringify` throws), the telemetry middleware
still returns the payload unchanged (the response is not failed), the
recorded size is 0, and the emitted log entry therefore records size 0. -/
theorem telemetry_nonserializable (req : TelemetryReq) (status t0 t1 : Nat) (em : Emission)
    (hcirc : em = Emission.send (SendPayload.pobj none) ∨
             em = Emission.json (JsonArg.val none)) :
    emissionSize em = 0 ∧
    (telemetryRun req status em t0 t1).1 = em ∧
    (telemetryRun req status em t0 t1).2 = onFinish req status 0 t0 t1 := by
  rcases hcirc with h | h <;> subst h <;> exact ⟨rfl, rfl, rfl⟩

/-- Witness for C8: a circular `res.send` payload on a non-logs path. -/
theorem telemetry_nonserializable_witness :
    emissionSize (Emission.send (SendPayload.pobj none)) = 0 ∧
    (telemetryRun
        { method := "GET", path := "/api/health", ip := some "1.2.3.4",
          remoteAddress := "5.6.7.8", userAgent := some "curl/8" }
        200 (Emission.send (SendPayload.pobj none)) 0 5).1 =
      Emission.send (SendPayload.pobj none) ∧
    (telemetryRun
        { method := "GET", path := "/api/health", ip := some "1.2.3.4",
          remoteAddress := "5.6.7.8", userAgent := some "curl/8" }
        200 (Emission.send (SendPayload.pobj none)) 0 5).2 =
      onFinish
        { method := "GET", path := "/api/health", ip := some "1.2.3.4",
          remoteAddress := "5.6.7.8", userAgent := some "curl/8" }
        200 0 0 5 :=
  telemetry_nonserializable
    { method := "GET", path := "/api/health", ip := some "1.2.3.4",
      remoteAddress := "5.6.7.8", userAgent := some "curl/8" }
    200 0 5 (Emission.send (SendPayload.pobj none)) (Or.inl rfl)

/-! ## C9: one structured log entry per completed request -/

/-- C9: the middleware emits the payload unchanged; on completion it
produces exactly one log entry — carrying method, path, status, recorded
byte size, duration, client address (`req.ip` with socket-address
fallback) and user agent — except that a path containing the log-retrieval
route `/logs/` produces no entry at all. -/
theorem telemetry_logging (req : TelemetryReq) (status : Nat) (em : Emission) (t0 t1 : Nat) :
    (telemetryRun req status em t0 t1).1 = em ∧
    ((telemetryRun req status em t0 t1).2.length =
       if jsStrIncludes req.path "/logs/" then 0 else 1) ∧
    (telemetryRun req status em t0 t1).2 =
      (if jsStrIncludes req.path "/logs/" then []
       else [{ method := req.method, path := req.path, status := status,
               size := emissionSize em, duration := t1 - t0,
               ip := jsOrElse req.ip req.remoteAddress,
               userAgent := req.userAgent }]) := by
  refine ⟨rfl, ?_, rfl⟩
  show (onFinish req status (emissionSize em) t0 t1).length = _
  unfold onFinish
  cases h : jsStrIncludes req.path "/logs/" <;> simp [h]

/-! ## C10: shutdown idempotence -/

/-- C10: running `cleanup` a second time produces no unhandled fault (it is
total and again ends in `process.exit(0)`), and — under the spec's
subsystem-handle contract, where `Closed` is terminal and a close attempt
on a `Closed` handle does not fault — a subsystem whose teardown completed
in the first run stays `Closed`, logs no error in the second run, and a
fully torn-down state is left exactly unchanged. -/
theorem shutdown_idempotent (env : ShutdownEnv) (st : SysState)
    (hr : ContractOK env.realtime) (hso : ContractOK env.socket)
    (hoa : ContractOK env.oauth) (hem : ContractOK env.emailInterval) :
    (cleanup env (cleanup env st).1).2.getLast? = some (CleanupEvent.exited 0) ∧
    ((cleanup env st).1.realtime = SubsystemState.closed →
       (cleanup env (cleanup env st).1).1.realtime = SubsystemState.closed ∧
       hasErrorFor (cleanup env (cleanup env st).1).2 "RealtimeManager" = false) ∧
    ((cleanup env st).1.socket = SubsystemState.closed →
       (cleanup env (cleanup env st).1).1.socket = SubsystemState.closed ∧
       hasErrorFor (cleanup env (cleanup env st).1).2 "SocketManager" = false) ∧
    ((cleanup env st).1.oauth = SubsystemState.closed →
       (cleanup env (cleanup env st).1).1.oauth = SubsystemState.closed ∧
       hasErrorFor (cleanup env (cleanup env st).1).2 "OAuthPKCEService" = false) ∧
    ((cleanup env st).1.emailInterval = SubsystemState.closed →
       (cleanup env (cleanup env st).1).1.emailInterval = SubsystemState.closed ∧
       hasErrorFor (cleanup env (cleanup env st).1).2 "EmailCooldownInterval" = false) := by
  set st1 := (cleanup env st).1 with hst1
  refine ⟨cleanup_last env st1, ?_, ?_, ?_, ?_⟩
  · intro h1
    have hr1 := closed_second_run env.realtime hr "RealtimeManager" st1.realtime h1
    constructor
    · show (runCloseStep "RealtimeManager" env.realtime st1.realtime).1 = _
      rw [hr1]
    · show hasErrorFor
        ((runCloseStep "RealtimeManager" env.realtime st1.realtime).2 ++
         (runCloseStep "SocketManager" env.socket st1.socket).2 ++
         (runCloseStep "OAuthPKCEService" env.oauth st1.oauth).2 ++
         (runCloseStep "EmailCooldownInterval" env.emailInterval st1.emailInterval).2 ++
         [CleanupEvent.exited 0]) "RealtimeManager" = false
      rw [hr1, hasErrorFor_append, hasErrorFor_append, hasErrorFor_append,
        hasErrorFor_append,
        hasErrorFor_runCloseStep_ne "SocketManager" "RealtimeManager" _ _ (by decide),
        hasErrorFor_runCloseStep_ne "OAuthPKCEService" "RealtimeManager" _ _ (by decide),
        hasErrorFor_runCloseStep_ne "EmailCooldownInterval" "RealtimeManager" _ _ (by decide)]
      rfl
  · intro h2
    have hr2 := closed_second_run env.socket hso "SocketManager" st1.socket h2
    constructor
    · show (runCloseStep "SocketManager" env.socket st1.socket).1 = _
      rw [hr2]
    · show hasErrorFor
        ((runCloseStep "RealtimeManager" env.realtime st1.realtime).2 ++
         (runCloseStep "SocketManager" env.socket st1.socket).2 ++
         (runCloseStep "OAuthPKCEService" env.oauth st1.oauth).2 ++
         (runCloseStep "EmailCooldownInterval" env.emailInterval st1.emailInterval).2 ++
         [CleanupEvent.exited 0]) "SocketManager" = false
      rw [hr2, hasErrorFor_append, hasErrorFor_append, hasErrorFor_append,
        hasErrorFor_append,
        hasErrorFor_runCloseStep_ne "RealtimeManager" "SocketManager" _ _ (by decide),
        hasErrorFor_runCloseStep_ne "OAuthPKCEService" "SocketManager" _ _ (by decide),
        hasErrorFor_runCloseStep_ne "EmailCooldownInterval" "SocketManager" _ _ (by decide)]
      rfl
  · intro h3
    have hr3 := closed_second_run env.oauth hoa "OAuthPKCEService" st1.oauth h3
    constructor
    · show (runCloseStep "OAuthPKCEService" env.oauth st1.oauth).1 = _
      rw [hr3]
    · show hasErrorFor
        ((runCloseStep "RealtimeManager" env.realtime st1.realtime).2 ++
         (runCloseStep "SocketManager" env.socket st1.socket).2 ++
         (runCloseStep "OAuthPKCEService" env.oauth st1.oauth).2 ++
         (runCloseStep "EmailCooldownInterval" env.emailInterval st1.emailInterval).2 ++
         [CleanupEvent.exited 0]) "OAuthPKCEService" = false
      rw [hr3, hasErrorFor_append, hasErrorFor_append, hasErrorFor_append,
        hasErrorFor_append,
        hasErrorFor_runCloseStep_ne "RealtimeManager" "OAuthPKCEService" _ _ (by decide),
        hasErrorFor_runCloseStep_ne "SocketManager" "OAuthPKCEService" _ _ (by decide),
        hasErrorFor_runCloseStep_ne "EmailCooldownInterval" "OAuthPKCEService" _ _ (by decide)]
      rfl
  · intro h4
    have hr4 := closed_second_run env.emailInterval hem "EmailCooldownInterval"
      st1.emailInterval h4
    constructor
    · show (runCloseStep "EmailCooldownInterval" env.emailInterval st1.emailInterval).1 = _
      rw [hr4]
    · show hasErrorFor
        ((runCloseStep "RealtimeManager" env.realtime st1.realtime).2 ++
         (runCloseStep "SocketManager" env.socket st1.socket).2 ++
         (runCloseStep "OAuthPKCEService" env.oauth st1.oauth).2 ++
         (runCloseStep "EmailCooldownInterval" env.emailInterval st1.emailInterval).2 ++
         [CleanupEvent.exited 0]) "EmailCooldownInterval" = false
      rw [hr4, hasErrorFor_append, hasErrorFor_append, hasErrorFor_append,
        hasErrorFor_append,
        hasErrorFor_runCloseStep_ne "RealtimeManager" "EmailCooldownInterval" _ _ (by decide),
        hasErrorFor_runCloseStep_ne "SocketManager" "EmailCooldownInterval" _ _ (by decide),
        hasErrorFor_runCloseStep_ne "OAuthPKCEService" "EmailCooldownInterval" _ _ (by decide)]
      rfl

/-- Witness for C10: a spec-conforming environment shut down twice — the
second run still exits 0, keeps the listener closed and logs no error. -/
theorem shutdown_idempotent_witness :
    (cleanup wShutdownOk (cleanup wShutdownOk wReadyState).1).2.getLast? =
      some (CleanupEvent.exited 0) ∧
    (cleanup wShutdownOk (cleanup wShutdownOk wReadyState).1).1.realtime =
      SubsystemState.closed ∧
    hasErrorFor (cleanup wShutdownOk (cleanup wShutdownOk wReadyState).1).2
      "RealtimeManager" = false :=
  have t := shutdown_idempotent wShutdownOk wReadyState
    wOkImpl_contract wOkImpl_contract wOkImpl_contract wOkImpl_contract
  ⟨t.1, (t.2.1 rfl).1, (t.2.1 rfl).2⟩

end InsForge
